import Mathlib

/-!
Verification development for the EXPA table-container core of MVGLTools.

The repository contains two generations of the row codec and structure
resolver:

* `src/DSCSTools/EXPANew.cpp` together with `src/DSCSTools/include/EXPAnew.h`
  (namespace `expa` below), and
* an earlier `EXPA.cpp` translation unit preserved in `src/unnamed/part_000`
  (namespace `p0` below).

Machine integers are modelled as `Nat`/`Int` with explicit two's-complement
conversion at the byte boundary; byte buffers are modelled as total maps
`Nat → Nat` (a byte per address) or as `List Nat` for whole files.  C++
`float` cells are modelled by their raw 32-bit pattern, which is exact for
the byte-copying codec (no floating-point arithmetic is performed by the
code under study).
-/

namespace MVGL

/-- Modelled from the spec: `Helpers.h`'s `ceilInteger(value, alignment)`
(the header is not part of the given sources).  Per spec sections 4.1 and 6
it rounds `v` up to the next multiple of `a`; alignment `0` (spec: the
EMPTY/UNK types have "Align 0" and "no storage") leaves the value
unchanged. -/
def ceilInt (v a : Nat) : Nat := if a = 0 then v else (v + a - 1) / a * a

/-- Little-endian byte encoding of `v` on `w` bytes (C++ writes of
`uintN_t`/`intN_t` through `reinterpret_cast` on a little-endian target). -/
def toLE : Nat → Nat → List Nat
  | 0, _ => []
  | w + 1, v => v % 256 :: toLE w (v / 256)

/-- Little-endian read of `w` bytes at address `off` from byte memory
`mem`. -/
def readLE (mem : Nat → Nat) (off : Nat) : Nat → Nat
  | 0 => 0
  | w + 1 => mem off + 256 * readLE mem (off + 1) w

/-- Store one byte at address `i`. -/
def setByteF (mem : Nat → Nat) (i v : Nat) : Nat → Nat :=
  fun j => if j = i then v else mem j

/-- Store a list of bytes starting at address `off`. -/
def writeBytesF (mem : Nat → Nat) (off : Nat) : List Nat → (Nat → Nat)
  | [] => mem
  | b :: bs => writeBytesF (setByteF mem off b) (off + 1) bs

/-- Two's-complement image of a signed integer on `w` bytes (the value a
C++ store of `intN_t` places in memory, read back as unsigned). -/
def toNat2c (w : Nat) (n : Int) : Nat := (n % ((2 : Int) ^ (8 * w))).toNat

/-- Signed reinterpretation of a `w`-byte unsigned value (C++ load through
an `intN_t` pointer). -/
def toSigned (w : Nat) (v : Nat) : Int :=
  if v < 2 ^ (8 * w - 1) then (v : Int) else (v : Int) - (2 : Int) ^ (8 * w)

/-- Byte fetch from a whole-file byte list; out-of-range reads yield 0
(the C++ would be undefined there; no theorem below depends on it). -/
def getB (content : List Nat) : Nat → Nat := fun i => content.getD i 0

/-- `EntryType` from `EXPAnew.h` lines 17-33.  Values read from a file
(`read<EntryType>`) that match no enumerator behave, in every function of
the sources (`getSize`, `getAlignment`, `readEXPAEntry`, `writeEXPAEntry`),
exactly like `UNK0` (all hit the `default:` branches), so `codeToType`
folds them onto `UNK0`. -/
inductive EntryType where
  | UNK0 | UNK1 | INT32 | INT16 | INT8 | FLOAT
  | STRING3 | STRING | STRING2 | BOOL | EMPTY | INT_ARRAY
deriving DecidableEq

/-- Numeric enumerator values of `EntryType` (`EXPAnew.h` lines 17-33). -/
def typeCode : EntryType → Nat
  | .UNK0 => 0 | .UNK1 => 1 | .INT32 => 2 | .INT16 => 3 | .INT8 => 4
  | .FLOAT => 5 | .STRING3 => 6 | .STRING => 7 | .STRING2 => 8
  | .BOOL => 9 | .EMPTY => 10 | .INT_ARRAY => 100

/-- Decode a `uint32_t` read from a file into an `EntryType`
(`read<EntryType>(stream)`); unknown codes act as `UNK0` (see
`EntryType`). -/
def codeToType (n : Nat) : EntryType :=
  if n = 0 then .UNK0 else if n = 1 then .UNK1 else if n = 2 then .INT32
  else if n = 3 then .INT16 else if n = 4 then .INT8 else if n = 5 then .FLOAT
  else if n = 6 then .STRING3 else if n = 7 then .STRING
  else if n = 8 then .STRING2 else if n = 9 then .BOOL
  else if n = 10 then .EMPTY else if n = 100 then .INT_ARRAY else .UNK0

/-- `getAlignment`, EXPANew.cpp lines 70-88 (identical values in
part_000 lines 421-438, whose missing `UNK0` case falls to the same
`default: 0`). -/
def getAlignment : EntryType → Nat
  | .UNK0 => 0 | .UNK1 => 0 | .INT32 => 4 | .INT16 => 2 | .INT8 => 1
  | .FLOAT => 4 | .STRING3 => 8 | .STRING => 8 | .STRING2 => 8
  | .BOOL => 4 | .EMPTY => 0 | .INT_ARRAY => 8

/-- `getSize`, EXPANew.cpp lines 90-108 (identical in part_000 lines
440-457). -/
def getSize : EntryType → Nat
  | .UNK0 => 0 | .UNK1 => 0 | .INT32 => 4 | .INT16 => 2 | .INT8 => 1
  | .FLOAT => 4 | .STRING3 => 8 | .STRING => 8 | .STRING2 => 8
  | .BOOL => 4 | .EMPTY => 0 | .INT_ARRAY => 16

/-- `EntryValue` variant, `EXPAnew.h` lines 14-15.  Strings are byte
lists; `float` is kept as its raw 32-bit pattern (the codec only copies
its bytes). -/
inductive EntryValue where
  | vBool (b : Bool)
  | vI8 (n : Int)
  | vI16 (n : Int)
  | vI32 (n : Int)
  | vF32 (bits : Nat)
  | vStr (s : List Nat)
  | vArr (xs : List Int)
  | vNone
deriving DecidableEq

/-- `std::get<bool>`: a tag mismatch is a programmer error in the sources
(`std::get` throws `bad_variant_access`); the model defaults.  Every
claim below that depends on a cell's content assumes matching tags. -/
def getBoolV : EntryValue → Bool
  | .vBool b => b
  | _ => false

def getI8V : EntryValue → Int
  | .vI8 n => n
  | _ => 0

def getI16V : EntryValue → Int
  | .vI16 n => n
  | _ => 0

def getI32V : EntryValue → Int
  | .vI32 n => n
  | _ => 0

def getF32V : EntryValue → Nat
  | .vF32 b => b
  | _ => 0

def getStrV : EntryValue → List Nat
  | .vStr s => s
  | _ => []

def getArrV : EntryValue → List Int
  | .vArr xs => xs
  | _ => []

/-- `StructureEntry`, `EXPAnew.h` lines 35-39. -/
structure StructureEntry where
  name : String
  type : EntryType
deriving DecidableEq

/-- `CHNKEntry`, `EXPAnew.h` lines 70-77: a deferred pointer patch
(absolute slot offset, payload bytes). -/
structure CHNKEntry where
  offset : Nat
  value : List Nat
deriving DecidableEq

/-- Read a NUL-terminated byte string starting at address `i`
(`std::string(ptr)` in `readEXPAEntry`); `fuel` bounds the scan (in the
container it is the file size, which the C++ scan never exceeds for files
produced by the writer). -/
def readCString (mem : Nat → Nat) : Nat → Nat → List Nat
  | _, 0 => []
  | i, f + 1 => if mem i = 0 then [] else mem i :: readCString mem (i + 1) f

/-- `readEXPAEntry`, EXPANew.cpp lines 190-221 (textually equivalent in
part_000 lines 596-626: the BOOL case there shifts a `uint32_t` instead of
an `int32_t`, which extracts the same bit).  `absOff` is the absolute
address `data + offset`; string and int-array cells dereference the
64-bit slot, which after CHNK patching holds the payload's file offset
(the C++ stores `content.data() + offset`; the base address cancels when
dereferencing, so the model stores the offset itself, with `0` as the
null pointer). -/
def readEXPAEntry (mem : Nat → Nat) (fuel : Nat) (t : EntryType)
    (absOff bc : Nat) : EntryValue :=
  match t with
  | .UNK0 | .UNK1 | .EMPTY => .vNone
  | .INT32 => .vI32 (toSigned 4 (readLE mem absOff 4))
  | .INT16 => .vI16 (toSigned 2 (readLE mem absOff 2))
  | .INT8 => .vI8 (toSigned 1 (readLE mem absOff 1))
  | .FLOAT => .vF32 (readLE mem absOff 4)
  | .STRING3 | .STRING | .STRING2 =>
    let p := readLE mem absOff 8
    if p = 0 then .vStr [] else .vStr (readCString mem p fuel)
  | .BOOL => .vBool ((readLE mem absOff 4).testBit bc)
  | .INT_ARRAY =>
    let cu := readLE mem absOff 4
    let n := if cu < 2 ^ 31 then cu else 0
    let p := readLE mem (absOff + 8) 8
    .vArr ((List.range n).map fun i => toSigned 4 (readLE mem (p + 4 * i) 4))

/-- Payload of part_000's int-array `CHNKEntry` (constructor at part_000
lines 795-800): `copy_n(reinterpret_cast<const char*>(data.data()), ...)`
copies the raw little-endian bytes of the `int32_t` values. -/
def arrayPayload (xs : List Int) : List Nat :=
  (xs.map fun n => toLE 4 (toNat2c 4 n)).flatten

/-- State threaded by `Structure::writeEXPA`: the row buffer, the offset
cursor, the bool bit counter, the in-flight bool word
(`std::bitset<32>`), and the accumulated CHNK entries. -/
structure WState where
  mem : Nat → Nat
  off : Nat
  bc : Nat
  word : Nat
  chnk : List CHNKEntry

/-- `std::bitset<32>::set(i, b)`.  In the sources each bit position is
assigned at most once starting from a cleared word, so assigning `false`
is a no-op; positions `i ≥ 32` would throw `std::out_of_range` in C++
(reachable only in `expa.writeEXPA`, whose missing flush-at-32 gate is
part of claim C3's finding) and are modelled as a plain bit-or. -/
def bset (w i : Nat) (b : Bool) : Nat := if b then w ||| 2 ^ i else w

namespace expa

/-- `convertEntryType`, EXPANew.cpp lines 30-48: an `std::map` lookup
(order-insensitive; modelled as a chain of key comparisons) defaulting to
`EMPTY`.  Note the absence of the `byte` and `short` keys that part_000's
`getTypeMap` has. -/
def convertEntryType (s : String) : EntryType :=
  if s = "int" then .INT32
  else if s = "int array" then .INT_ARRAY
  else if s = "float" then .FLOAT
  else if s = "int8" then .INT8
  else if s = "int16" then .INT16
  else if s = "int32" then .INT32
  else if s = "bool" then .BOOL
  else if s = "empty" then .EMPTY
  else if s = "string" then .STRING
  else if s = "string2" then .STRING2
  else if s = "string3" then .STRING3
  else .EMPTY

/-- `toString`, EXPANew.cpp lines 50-68. -/
def typeName : EntryType → String
  | .UNK0 => "unk0" | .UNK1 => "unk1" | .INT32 => "int32" | .INT16 => "int16"
  | .INT8 => "int8" | .FLOAT => "float" | .STRING3 => "string3"
  | .STRING => "string" | .STRING2 => "string2" | .BOOL => "bool"
  | .EMPTY => "empty" | .INT_ARRAY => "int array"

/-- String `CHNKEntry` payload, constructor at EXPANew.cpp lines 339-344:
a zero-initialised buffer of `ceilInteger<4>(size + 1)` bytes with the
string copied in (NUL terminator plus padding to a 4-byte multiple). -/
def mkChnkString (off : Nat) (s : List Nat) : CHNKEntry :=
  ⟨off, s ++ List.replicate (ceilInt (s.length + 1) 4 - s.length) 0⟩

/-- Int-array `CHNKEntry` payload, constructor at EXPANew.cpp lines
346-351: the buffer is `data.size() * sizeof(int32_t)` zero bytes, but
`std::copy(data.begin(), data.end(), value.begin())` copies from
`vector<int32_t>` into `vector<char>` element-wise, narrowing each
`int32_t` to one char — the payload is the elements' low bytes followed
by `3 * size` zeros, not their little-endian encoding (part_000's
`copy_n` from a reinterpreted `char` pointer is the raw copy; see
`arrayPayload`). -/
def mkChnkArray (off : Nat) (xs : List Int) : CHNKEntry :=
  ⟨off, (xs.map fun n => toNat2c 1 n) ++ List.replicate (3 * xs.length) 0⟩

/-- `writeEXPAEntry`, EXPANew.cpp lines 155-188.  `absOff` is the
`base_offset + offset` argument; the buffer is written at `off`.  Note
the INT_ARRAY case returns a `CHNKEntry` unconditionally (part_000 guards
it with `!array.empty()`), and that the 4 padding bytes at `off + 4` are
left untouched. -/
def writeEXPAEntry (absOff : Nat) (mem : Nat → Nat) (off : Nat)
    (t : EntryType) (v : EntryValue) : (Nat → Nat) × Option CHNKEntry :=
  match t with
  | .INT32 => (writeBytesF mem off (toLE 4 (toNat2c 4 (getI32V v))), none)
  | .INT16 => (writeBytesF mem off (toLE 2 (toNat2c 2 (getI16V v))), none)
  | .INT8 => (writeBytesF mem off (toLE 1 (toNat2c 1 (getI8V v))), none)
  | .FLOAT => (writeBytesF mem off (toLE 4 (getF32V v)), none)
  | .STRING3 | .STRING | .STRING2 =>
    (writeBytesF mem off (toLE 8 0),
     if getStrV v = [] then none else some (mkChnkString absOff (getStrV v)))
  | .INT_ARRAY =>
    (writeBytesF (writeBytesF mem off (toLE 4 (getArrV v).length))
       (off + 8) (toLE 8 0),
     some (mkChnkArray (absOff + 8) (getArrV v)))
  | .EMPTY | .BOOL | .UNK0 | .UNK1 => (mem, none)

/-- One iteration of the loop of `Structure::writeEXPA`, EXPANew.cpp
lines 250-274.  The bool-flush gate is `type != BOOL` only — unlike
part_000 there is no `bitCounter >= 32` clause. -/
def writeStep (rowBase : Nat) (st : WState) (fv : StructureEntry × EntryValue) :
    WState :=
  let t := fv.1.type
  let st1 :=
    if t ≠ .BOOL then
      let stf :=
        if st.bc > 0 then
          { st with mem := writeBytesF st.mem st.off (toLE 4 st.word),
                    off := st.off + 4, bc := 0, word := 0 }
        else st
      { stf with off := ceilInt stf.off (getAlignment t) }
    else st
  let r := writeEXPAEntry (rowBase + st1.off) st1.mem st1.off t fv.2
  let st2 := { st1 with mem := r.1, chnk := st1.chnk ++ r.2.toList }
  if t = .BOOL then
    { st2 with word := bset st2.word st2.bc (getBoolV fv.2), bc := st2.bc + 1 }
  else
    { st2 with off := st2.off + getSize t }

/-- The loop of `Structure::writeEXPA` over `std::views::zip(structure,
entries)`. -/
def writeGo (rowBase : Nat) : List (StructureEntry × EntryValue) → WState → WState
  | [], st => st
  | fv :: rest, st => writeGo rowBase rest (writeStep rowBase st fv)

/-- The trailing bool-word flush of `Structure::writeEXPA`, EXPANew.cpp
lines 276-280. -/
def writeFinish (st : WState) : WState :=
  if st.bc > 0 then
    { st with mem := writeBytesF st.mem st.off (toLE 4 st.word),
              off := st.off + 4 }
  else st

/-- `Structure::writeEXPA`, EXPANew.cpp lines 242-283, returning the full
final state (the C++ returns the CHNK entries and mutates the buffer; the
claims additionally speak about the final offset cursor, hence the state
is kept). -/
def writeEXPA (rowBase : Nat) (mem : Nat → Nat) (s : List StructureEntry)
    (row : List EntryValue) : WState :=
  writeFinish (writeGo rowBase (s.zip row) ⟨mem, 0, 0, 0, []⟩)

/-- The loop of `Structure::readEXPA`, EXPANew.cpp lines 285-308.  `mem`
is the whole (CHNK-patched) file image and `base` the row's address; the
gate is `bitCounter != 0 || type != BOOL`, so after the first bool of a
run the counter is reset and every bool is read from bit 0 of its own
word. -/
def readGo (mem : Nat → Nat) (fuel base : Nat) :
    List StructureEntry → Nat → Nat → List EntryValue
  | [], _, _ => []
  | e :: rest, off, bc =>
    let g := bc ≠ 0 ∨ e.type ≠ .BOOL
    let off1 := if g then ceilInt off (getAlignment e.type) else off
    let bc1 := if g then 0 else bc
    let v := readEXPAEntry mem fuel e.type (base + off1) bc1
    let off2 := if bc1 = 0 then off1 + getSize e.type else off1
    let bc2 := if e.type = .BOOL then bc1 + 1 else bc1
    v :: readGo mem fuel base rest off2 bc2

/-- `Structure::readEXPA`, EXPANew.cpp lines 285-308 (empty structure
short-circuits before touching the buffer). -/
def readEXPA (mem : Nat → Nat) (fuel base : Nat)
    (s : List StructureEntry) : List EntryValue :=
  if s.isEmpty then [] else readGo mem fuel base s 0 0

/-- The loop of `Structure::getEXPASize`, EXPANew.cpp lines 317-327, with
state (currentSize, bitCounter); the gate is
`bitCounter != 0 || type != BOOL`, so every bool accounts for a full
4-byte word. -/
def sizeGo : List StructureEntry → Nat → Nat → Nat
  | [], cs, _ => cs
  | e :: rest, cs, bc =>
    let g := bc ≠ 0 ∨ e.type ≠ .BOOL
    let cs1 := if g then ceilInt cs (getAlignment e.type) else cs
    let bc1 := if g then 0 else bc
    let cs2 := if bc1 = 0 then cs1 + getSize e.type else cs1
    let bc2 := if e.type = .BOOL then bc1 + 1 else bc1
    sizeGo rest cs2 bc2

/-- `Structure::getEXPASize`, EXPANew.cpp lines 310-332.  Note line 329:
the result is rounded up to a multiple of 8 only when the number of
fields is even (`structure.size() % 2 == 0`). -/
def getEXPASize (s : List StructureEntry) : Nat :=
  if s.isEmpty then 0
  else
    let r := sizeGo s 0 0
    if s.length % 2 = 0 then ceilInt r 8 else r

end expa

namespace p0

/-- `getTypeMap`/`convertEntryType`, part_000 lines 374-400: the map has
`byte` and `short` keys in addition to everything `expa.convertEntryType`
recognises; unknown strings fall to `EMPTY`. -/
def convertEntryType (s : String) : EntryType :=
  if s = "byte" then .INT8
  else if s = "short" then .INT16
  else if s = "int" then .INT32
  else if s = "int array" then .INT_ARRAY
  else if s = "float" then .FLOAT
  else if s = "int8" then .INT8
  else if s = "int16" then .INT16
  else if s = "int32" then .INT32
  else if s = "bool" then .BOOL
  else if s = "empty" then .EMPTY
  else if s = "string" then .STRING
  else if s = "string2" then .STRING2
  else if s = "string3" then .STRING3
  else .EMPTY

/-- String `CHNKEntry` payload, part_000 lines 788-793: the buffer is
`ceilInteger<4>(size + 2)` zero bytes with the string copied in (one byte
more slack than the EXPANew variant; still NUL-terminated and 4-aligned). -/
def mkChnkString (off : Nat) (s : List Nat) : CHNKEntry :=
  ⟨off, s ++ List.replicate (ceilInt (s.length + 2) 4 - s.length) 0⟩

/-- `writeEXPAEntry`, part_000 lines 560-594: like the EXPANew variant
but the int-array case emits a `CHNKEntry` only when the array is
non-empty.  In part_000's `Structure::writeEXPA` the `base_offset`
argument is the row-relative offset itself. -/
def writeEXPAEntry (absOff : Nat) (mem : Nat → Nat) (off : Nat)
    (t : EntryType) (v : EntryValue) : (Nat → Nat) × Option CHNKEntry :=
  match t with
  | .INT32 => (writeBytesF mem off (toLE 4 (toNat2c 4 (getI32V v))), none)
  | .INT16 => (writeBytesF mem off (toLE 2 (toNat2c 2 (getI16V v))), none)
  | .INT8 => (writeBytesF mem off (toLE 1 (toNat2c 1 (getI8V v))), none)
  | .FLOAT => (writeBytesF mem off (toLE 4 (getF32V v)), none)
  | .STRING3 | .STRING | .STRING2 =>
    (writeBytesF mem off (toLE 8 0),
     if getStrV v = [] then none else some (mkChnkString absOff (getStrV v)))
  | .INT_ARRAY =>
    (writeBytesF (writeBytesF mem off (toLE 4 (getArrV v).length))
       (off + 8) (toLE 8 0),
     if getArrV v = [] then none else some ⟨absOff + 8, arrayPayload (getArrV v)⟩)
  | .EMPTY | .BOOL | .UNK0 | .UNK1 => (mem, none)

/-- One iteration of the loop of part_000's `Structure::writeEXPA`
(lines 670-694): the flush gate is `type != BOOL || bitCounter >= 32`,
and `writeEXPAEntry` receives the row-relative offset as its
`base_offset`. -/
def writeStep (st : WState) (fv : StructureEntry × EntryValue) : WState :=
  let t := fv.1.type
  let st1 :=
    if t ≠ .BOOL ∨ st.bc ≥ 32 then
      let stf :=
        if st.bc > 0 then
          { st with mem := writeBytesF st.mem st.off (toLE 4 st.word),
                    off := st.off + 4, bc := 0, word := 0 }
        else st
      { stf with off := ceilInt stf.off (getAlignment t) }
    else st
  let r := writeEXPAEntry st1.off st1.mem st1.off t fv.2
  let st2 := { st1 with mem := r.1, chnk := st1.chnk ++ r.2.toList }
  if t = .BOOL then
    { st2 with word := bset st2.word st2.bc (getBoolV fv.2), bc := st2.bc + 1 }
  else
    { st2 with off := st2.off + getSize t }

/-- The loop of part_000's `Structure::writeEXPA` over
`std::views::zip(structure, entries)`. -/
def writeGo : List (StructureEntry × EntryValue) → WState → WState
  | [], st => st
  | fv :: rest, st => writeGo rest (writeStep st fv)

/-- The trailing bool-word flush of part_000's `Structure::writeEXPA`
(lines 696-700). -/
def writeFinish (st : WState) : WState :=
  if st.bc > 0 then
    { st with mem := writeBytesF st.mem st.off (toLE 4 st.word),
              off := st.off + 4 }
  else st

/-- part_000's `Structure::writeEXPA`, lines 662-703: allocates its own
`0xCC`-filled buffer and returns it with the CHNK entries; modelled by
the final state (buffer map, final offset, CHNK list). -/
def writeEXPA (s : List StructureEntry) (row : List EntryValue) : WState :=
  writeFinish (writeGo (s.zip row) ⟨fun _ => 0xCC, 0, 0, 0, []⟩)

/-- The loop of part_000's `Structure::readEXPA` (lines 705-732): the
gate is `type != BOOL || bitCounter >= 32` and, on firing with a pending
bool word, advances the offset by `getSize(BOOL)` before aligning — the
mirror image of the write side's packing. -/
def readGo (mem : Nat → Nat) (fuel base : Nat) :
    List StructureEntry → Nat → Nat → List EntryValue
  | [], _, _ => []
  | e :: rest, off, bc =>
    let g := e.type ≠ .BOOL ∨ bc ≥ 32
    let offf := if g then (if bc > 0 then off + getSize .BOOL else off) else off
    let off1 := if g then ceilInt offf (getAlignment e.type) else offf
    let bc1 := if g then 0 else bc
    let v := readEXPAEntry mem fuel e.type (base + off1) bc1
    let off2 := if e.type = .BOOL then off1 else off1 + getSize e.type
    let bc2 := if e.type = .BOOL then bc1 + 1 else bc1
    v :: readGo mem fuel base rest off2 bc2

/-- part_000's `Structure::readEXPA`, lines 705-732. -/
def readEXPA (mem : Nat → Nat) (fuel base : Nat)
    (s : List StructureEntry) : List EntryValue :=
  if s.isEmpty then [] else readGo mem fuel base s 0 0

/-- The loop of part_000's `Structure::getEXPASize` (lines 768-778):
gate `bitCounter == 0 || bitCounter >= 32 || type != BOOL`; a bool word's
4 bytes are accounted for eagerly at the start of each run. -/
def sizeGo : List StructureEntry → Nat → Nat → Nat
  | [], cs, _ => cs
  | e :: rest, cs, bc =>
    let g := bc = 0 ∨ bc ≥ 32 ∨ e.type ≠ .BOOL
    let cs1 := if g then ceilInt cs (getAlignment e.type) else cs
    let bc1 := if g then 0 else bc
    let cs2 := if bc1 = 0 then cs1 + getSize e.type else cs1
    let bc2 := if e.type = .BOOL then bc1 + 1 else bc1
    sizeGo rest cs2 bc2

/-- part_000's `Structure::getEXPASize`, lines 761-781: the loop result
is rounded up to a multiple of 8 unconditionally. -/
def getEXPASize (s : List StructureEntry) : Nat :=
  if s.isEmpty then 0 else ceilInt (sizeGo s 0 0) 8

end p0

/-- `FinalTable`, `EXPAnew.h` lines 55-60 (`structure` is a Lean keyword,
so the field is called `struc`).  The table name is its byte string. -/
structure Table where
  name : List Nat
  struc : List StructureEntry
  entries : List (List EntryValue)
deriving DecidableEq

/-- `FinalFile`, `EXPAnew.h` lines 62-65. -/
structure FinalFile where
  tables : List Table
deriving DecidableEq

def EXPA_MAGIC : Nat := 0x41505845

def CHNK_MAGIC : Nat := 0x4B4E4843

namespace expa

/-- Modelled from the spec: `write(stream, table.name, nameSize)` from
the missing `Helpers.h`; spec section 4.3: "`name_size` bytes of name
(NUL-terminated, zero-padded)". -/
def padName (n : Nat) (bs : List Nat) : List Nat :=
  bs.take n ++ List.replicate (n - (bs.take n).length) 0

/-- The per-row loop of the container writer, `EXPAnew.h` lines 155-160:
each row is encoded into a fresh `0xCC`-filled buffer of
`actualStructureSize` bytes at `base_offset = stream.tellp()` and
appended, accumulating CHNK entries. -/
def writeRows (struc : List StructureEntry) (actual : Nat) :
    List (List EntryValue) → List Nat × List CHNKEntry → List Nat × List CHNKEntry
  | [], acc => acc
  | r :: rest, acc =>
    let st := writeEXPA acc.1.length (fun _ => 0xCC) struc r
    writeRows struc actual rest
      (acc.1 ++ (List.range actual).map st.mem, acc.2 ++ st.chnk)

/-- One table of the container writer, `EXPAnew.h` lines 134-161: name
size and padded name, the optional in-band structure section, the
unrounded `structureSize` and the row count, a seek to the next 8-byte
boundary (zero fill), then the rows. -/
def writeTable (hasStruct : Bool) (acc : List Nat × List CHNKEntry)
    (t : Table) : List Nat × List CHNKEntry :=
  let nameSize := ceilInt (t.name.length + 1) 4
  let b1 := acc.1 ++ toLE 4 nameSize ++ padName nameSize t.name
  let b2 :=
    if hasStruct then
      b1 ++ toLE 4 t.struc.length ++
        (t.struc.map fun e => toLE 4 (typeCode e.type)).flatten
    else b1
  let structureSize := getEXPASize t.struc
  let actual := ceilInt structureSize 8
  let b3 := b2 ++ toLE 4 structureSize ++ toLE 4 t.entries.length
  let b4 := b3 ++ List.replicate (ceilInt b3.length 8 - b3.length) 0
  writeRows t.struc actual t.entries (b4, acc.2)

/-- The table loop of the container writer. -/
def writeTablesGo (hasStruct : Bool) :
    List Table → List Nat × List CHNKEntry → List Nat × List CHNKEntry
  | [], acc => acc
  | t :: ts, acc => writeTablesGo hasStruct ts (writeTable hasStruct acc t)

/-- Everything the container writer (`EXPAnew.h` lines 125-161) emits
before the CHNK header: the EXPA header then the tables.  The length of
the first component is the file offset at which the CHNK magic is
written. -/
def writePreChnk (hasStruct : Bool) (f : FinalFile) : List Nat × List CHNKEntry :=
  writeTablesGo hasStruct f.tables (toLE 4 EXPA_MAGIC ++ toLE 4 f.tables.length, [])

/-- The CHNK entry section, `EXPAnew.h` lines 165-170. -/
def chnkBytes : List CHNKEntry → List Nat
  | [] => []
  | e :: es => toLE 4 e.offset ++ toLE 4 e.value.length ++ e.value ++ chnkBytes es

/-- The container writer `writeEXPA<expa>`, `EXPAnew.h` lines 125-171,
as the byte list of the produced file.  `hasStruct` is the dialect's
`HAS_STRUCTURE_SECTION` (`true` for `EXPA64`, `false` for `EXPA32`). -/
def writeEXPAFile (hasStruct : Bool) (f : FinalFile) : List Nat :=
  let pc := writePreChnk hasStruct f
  pc.1 ++ toLE 4 CHNK_MAGIC ++ toLE 4 pc.2.length ++ chnkBytes pc.2

/-- File offset of the CHNK header in a file produced by the writer. -/
def chnkHeaderOffset (hasStruct : Bool) (f : FinalFile) : Nat :=
  (writePreChnk hasStruct f).1.length

/-- Little-endian `uint32_t` read from a file image. -/
def rdU32 (content : List Nat) (i : Nat) : Nat := readLE (getB content) i 4

/-- The synthesised field name `std::format("{} {}", toString(type), j)`
of `EXPA64::getStructure`, EXPANew.cpp line 365. -/
def synthName (t : EntryType) (j : Nat) : String :=
  typeName t ++ " " ++ Nat.repr j

/-- `EXPA64::getStructure`, EXPANew.cpp lines 358-377: read the in-band
preamble (count, then that many type codes) from the stream, then prefer
the file-based structure only when it is non-empty, has the same length,
and agrees position-wise on every type.  `fromFile` abstracts
`getStructureFromFile(filePath, tableName)` (a filesystem lookup keyed
here by the table name bytes); returns the structure and the advanced
cursor. -/
def getStructure64 (fromFile : List Nat → List StructureEntry)
    (content : List Nat) (cur : Nat) (name : List Nat) :
    List StructureEntry × Nat :=
  let count := rdU32 content cur
  let inband := (List.range count).map fun j =>
    let t := codeToType (rdU32 content (cur + 4 + 4 * j))
    ({ name := synthName t j, type := t } : StructureEntry)
  let cur2 := cur + 4 + 4 * count
  let ff := fromFile name
  if ff = [] then (inband, cur2)
  else if ff.length ≠ count then (inband, cur2)
  else if (inband.zip ff).any (fun p => p.1.type != p.2.type) then (inband, cur2)
  else (ff, cur2)

/-- Per-table metadata recorded by the reader (`TableEntry`, `EXPAnew.h`
lines 176-183). -/
structure TableRec where
  name : List Nat
  dataOffset : Nat
  entryCount : Nat
  entrySize : Nat
  struc : List StructureEntry

/-- The table loop of the container reader, `EXPAnew.h` lines 196-215:
align to `ALIGN_STEP`, read the padded name (taken up to its first NUL,
as `std::string(nameData.data())` does), resolve the structure, read
`entrySize` and `entryCount`, align to 8, record the data offset, skip
the row region, and fail unless `Structure::getEXPASize()` equals the
declared `entrySize`. -/
def readTables (hasStruct : Bool) (alignStep : Nat)
    (fromFile : List Nat → List StructureEntry) (content : List Nat) :
    Nat → Nat → List TableRec → Except String (List TableRec × Nat)
  | 0, cur, acc => .ok (acc, cur)
  | n + 1, cur, acc =>
    let c0 := ceilInt cur alignStep
    let nameLength := rdU32 content c0
    let nameData := (content.drop (c0 + 4)).take nameLength
    let name := nameData.takeWhile (fun b => b != 0)
    let c1 := c0 + 4 + nameLength
    let sc := if hasStruct then getStructure64 fromFile content c1 name
              else (fromFile name, c1)
    let entrySize := rdU32 content sc.2
    let entryCount := rdU32 content (sc.2 + 4)
    let c3 := ceilInt (sc.2 + 8) 8
    let c4 := c3 + entryCount * ceilInt entrySize 8
    if getEXPASize sc.1 ≠ entrySize then
      .error "Structure size does not match entry size."
    else
      readTables hasStruct alignStep fromFile content n c4
        (acc ++ [⟨name, c3, entryCount, entrySize, sc.1⟩])

/-- Overwrite bytes of a file image starting at `off` (the CHNK patch
store `*reinterpret_cast<uint64_t*>(content.data() + offset) = ptr`). -/
def spliceBytes (l : List Nat) (off : Nat) (bs : List Nat) : List Nat :=
  l.take off ++ bs ++ l.drop (off + bs.length)

/-- The CHNK patch loop, `EXPAnew.h` lines 222-229: for each entry read
`offset` and `size`, overwrite the 8 bytes at `offset` with the payload
position (`content.data() + tellg()`; the model stores the file offset,
see `readEXPAEntry`), and skip the payload.  Stream reads use the
original image, as the C++ stream rereads the file, not the patched
buffer. -/
def applyChnk (orig : List Nat) : Nat → Nat → List Nat → List Nat
  | 0, _, patched => patched
  | n + 1, cur, patched =>
    let off := rdU32 orig cur
    let sz := rdU32 orig (cur + 4)
    applyChnk orig n (cur + 8 + sz) (spliceBytes patched off (toLE 8 (cur + 8)))

/-- The row-decode loop of the reader, `EXPAnew.h` lines 238-242. -/
def decodeRows (mem : Nat → Nat) (fuel : Nat) (struc : List StructureEntry)
    (inc : Nat) : Nat → Nat → List (List EntryValue)
  | _, 0 => []
  | off, n + 1 =>
    readEXPA mem fuel off struc :: decodeRows mem fuel struc inc (off + inc) n

/-- The container reader `readEXPA<expa>`, `EXPAnew.h` lines 173-248:
magic check, table walk, CHNK header check, pointer patching, then row
decoding.  The `tableCount` header field is an `int32_t`, so values with
the high bit set run the loop zero times. -/
def readEXPAFile (hasStruct : Bool) (alignStep : Nat)
    (fromFile : List Nat → List StructureEntry) (content : List Nat) :
    Except String FinalFile :=
  if rdU32 content 0 ≠ EXPA_MAGIC then .error "Given file lacks EXPA header."
  else
    let tcRaw := rdU32 content 4
    let tc := if tcRaw < 2 ^ 31 then tcRaw else 0
    match readTables hasStruct alignStep fromFile content tc 8 [] with
    | .error e => .error e
    | .ok (tabs, cur) =>
      let c0 := ceilInt cur alignStep
      if rdU32 content c0 ≠ CHNK_MAGIC then .error "Given file lacks CHNK header."
      else
        let ne := rdU32 content (c0 + 4)
        let patched := applyChnk content ne (c0 + 8) content
        .ok ⟨tabs.map fun tr =>
          { name := tr.name, struc := tr.struc,
            entries := decodeRows (getB patched) patched.length tr.struc
              (ceilInt tr.entrySize 8) tr.dataOffset tr.entryCount }⟩

/-- `getStructureFromFile`, EXPANew.cpp lines 110-153 (textually the
same in part_000 lines 514-558).  Filesystem and library effects are
oracle parameters: `dirExists`/`indexExists` for the two existence
checks, `parseIndex`/`parseFormat` for `boost::property_tree::read_json`
(whose parse failure is an exception, i.e. `Except.error`, propagated by
this function — there is no try/catch in the sources), `regexSearch` and
`wrapRegex` for the boost.regex calls.  The index is an ordered list of
(path-regex, schema-file) pairs; a schema file is an ordered list of
(table-key, ordered field list) pairs. -/
def getStructureFromFile (dirExists indexExists : Bool)
    (parseIndex : Except Unit (List (String × String)))
    (parseFormat : String → Except Unit (List (String × List (String × String))))
    (regexSearch : String → String → Bool) (wrapRegex : String → String)
    (filePath tableName : String) : Except Unit (List StructureEntry) :=
  if !dirExists then .ok []
  else if !indexExists then .ok []
  else
    match parseIndex with
    | .error e => .error e
    | .ok idx =>
      let formatFile := ((idx.find? fun kv => regexSearch filePath kv.1).map Prod.snd).getD ""
      if formatFile = "" then .ok []
      else
        match parseFormat formatFile with
        | .error e => .error e
        | .ok fmt =>
          let fv : Option (List (String × String)) :=
            match fmt.find? (fun kv => kv.1 == tableName) with
            | some kv => some kv.2
            | none =>
              (fmt.find? fun kv => regexSearch tableName (wrapRegex kv.1)).map Prod.snd
          match fv with
          | none => .ok []
          | some entries =>
            .ok (entries.map fun kv => ⟨kv.1, convertEntryType kv.2⟩)

end expa

/-! ## Concrete inputs and shared lemmas -/

/-- A one-table `EXPA64` input: table name `"t"` (byte 116), structure
`[BOOL, BOOL]`, one row `[true, true]` — value tags match the types. -/
def boolPairFile : FinalFile :=
  ⟨[⟨[116], [⟨"a", .BOOL⟩, ⟨"b", .BOOL⟩], [[.vBool true, .vBool true]]⟩]⟩

/-- What the reader actually returns for `boolPairFile`: the field names
come from the in-band preamble and the second bool flips to `false`,
because `Structure::readEXPA` reads bit 0 of a fresh word per bool while
`Structure::writeEXPA` packed both bools into bits 0 and 1 of one word. -/
def boolPairReadBack : FinalFile :=
  ⟨[⟨[116], [⟨"bool 0", .BOOL⟩, ⟨"bool 1", .BOOL⟩], [[.vBool true, .vBool false]]⟩]⟩

/-- The scalar structure `[("a", INT32), ("b", INT16), ("c", INT8)]` of
the spec's scenario S1. -/
def s3Fields : List StructureEntry := [⟨"a", .INT32⟩, ⟨"b", .INT16⟩, ⟨"c", .INT8⟩]

/-- The spec's type-string table, transcribed from the glossary line
"byte→INT8, short→INT16, int→INT32, int array→INT_ARRAY, float→FLOAT,
int8→INT8, int16→INT16, int32→INT32, bool→BOOL, empty→EMPTY,
string→STRING, string2→STRING2, string3→STRING3; all others → EMPTY",
for comparison with the two implementations. -/
def claimedTypeMap (s : String) : EntryType :=
  if s = "byte" then .INT8
  else if s = "short" then .INT16
  else if s = "int" then .INT32
  else if s = "int array" then .INT_ARRAY
  else if s = "float" then .FLOAT
  else if s = "int8" then .INT8
  else if s = "int16" then .INT16
  else if s = "int32" then .INT32
  else if s = "bool" then .BOOL
  else if s = "empty" then .EMPTY
  else if s = "string" then .STRING
  else if s = "string2" then .STRING2
  else if s = "string3" then .STRING3
  else .EMPTY

/-- `zip` only consumes the common prefix: zipping equals zipping the
mutually truncated lists. -/
theorem zip_eq_zip_truncated {α β : Type} (s : List α) :
    ∀ r : List β, s.zip r = (s.take r.length).zip (r.take s.length) := by
  induction s with
  | nil => intro r; simp
  | cons a s2 ih =>
    intro r
    cases r with
    | nil => simp
    | cons b r2 => simp [ih r2]

theorem ceilInt_of_mod4 (v : Nat) (h : v % 4 = 0) : ceilInt v 4 = v := by
  unfold ceilInt; norm_num; omega

theorem ceilInt8_dvd (v : Nat) : 8 ∣ ceilInt v 8 := by
  unfold ceilInt
  norm_num

theorem ceilInt8_ge (v : Nat) : v ≤ ceilInt v 8 := by
  unfold ceilInt
  norm_num
  omega

theorem toLE_length : ∀ (w v : Nat), (toLE w v).length = w := by
  intro w
  induction w with
  | zero => intro v; rfl
  | succ m ih => intro v; simp [toLE, ih]

theorem getB_cons_succ (b : Nat) (l : List Nat) (i : Nat) :
    getB (b :: l) (i + 1) = getB l i := rfl

theorem readCString_shift (b : Nat) (l : List Nat) :
    ∀ (f i : Nat), readCString (getB (b :: l)) (i + 1) f = readCString (getB l) i f := by
  intro f
  induction f with
  | zero => intro i; rfl
  | succ m ih =>
    intro i
    simp only [readCString, getB_cons_succ]
    rw [ih (i + 1)]

/-- A NUL-free byte string followed by a NUL reads back exactly, given
fuel past its length. -/
theorem readCString_terminated :
    ∀ (s rest : List Nat) (fuel : Nat), 0 ∉ s → s.length + 1 ≤ fuel →
      readCString (getB (s ++ 0 :: rest)) 0 fuel = s := by
  intro s
  induction s with
  | nil =>
    intro rest fuel h hf
    cases fuel with
    | zero => omega
    | succ m => simp [readCString, getB]
  | cons c s2 ih =>
    intro rest fuel h hf
    cases fuel with
    | zero => simp at hf
    | succ m =>
      have hc : c ≠ 0 := fun hh => h (by simp [hh])
      simp only [readCString]
      rw [show getB ((c :: s2) ++ (0 :: rest)) 0 = c from rfl]
      rw [if_neg hc]
      rw [show ((c :: s2) ++ (0 :: rest)) = c :: (s2 ++ 0 :: rest) from rfl]
      rw [show (0 : Nat) + 1 = 0 + 1 from rfl]
      rw [readCString_shift]
      rw [ih rest m (fun hx => h (by simp [hx])) (by simpa using hf)]

theorem readLE_shift (b : Nat) (l : List Nat) :
    ∀ (w i : Nat), readLE (getB (b :: l)) (i + 1) w = readLE (getB l) i w := by
  intro w
  induction w with
  | zero => intro i; rfl
  | succ m ih =>
    intro i
    simp only [readLE, getB_cons_succ]
    rw [ih (i + 1)]

theorem readLE_skipPre : ∀ (pre l : List Nat) (w i : Nat),
    readLE (getB (pre ++ l)) (pre.length + i) w = readLE (getB l) i w := by
  intro pre
  induction pre with
  | nil => intro l w i; simp
  | cons b pre2 ih =>
    intro l w i
    rw [show (b :: pre2) ++ l = b :: (pre2 ++ l) from rfl]
    rw [show (b :: pre2).length + i = (pre2.length + i) + 1 by simp; omega]
    rw [readLE_shift, ih]

/-- A little-endian store read back little-endian yields the value
modulo the field width. -/
theorem readLE_toLE : ∀ (w v : Nat) (rest : List Nat),
    readLE (getB (toLE w v ++ rest)) 0 w = v % 256 ^ w := by
  intro w
  induction w with
  | zero => intro v rest; simp [readLE, Nat.mod_one]
  | succ m ih =>
    intro v rest
    simp only [toLE, readLE]
    rw [show (v % 256 :: toLE m (v / 256)) ++ rest
        = v % 256 :: (toLE m (v / 256) ++ rest) from rfl]
    rw [show getB (v % 256 :: (toLE m (v / 256) ++ rest)) 0 = v % 256 from rfl]
    rw [show (0 : Nat) + 1 = 0 + 1 from rfl]
    rw [readLE_shift, ih]
    rw [pow_succ']
    rw [Nat.mod_mul]

theorem toNat2c_lt (n : Int) : toNat2c 4 n < 2 ^ 32 := by
  unfold toNat2c
  norm_num
  omega

/-- A two's-complement store read back signed is the identity on the
`int32_t` range. -/
theorem toSigned_toNat2c (n : Int) (h1 : -(2 ^ 31) ≤ n) (h2 : n < 2 ^ 31) :
    toSigned 4 (toNat2c 4 n) = n := by
  unfold toSigned toNat2c
  norm_num
  omega

theorem arrayPayload_cons (x : Int) (rest : List Int) :
    arrayPayload (x :: rest) = toLE 4 (toNat2c 4 x) ++ arrayPayload rest := by
  simp [arrayPayload]

/-- Reading `count` little-endian `int32_t` values out of an int-array
CHNK payload — exactly what `readEXPAEntry`'s INT_ARRAY case does after
pointer patching — returns the encoded array. -/
theorem arrayPayload_decode : ∀ (xs : List Int),
    (∀ x ∈ xs, -(2 ^ 31) ≤ x ∧ x < 2 ^ 31) →
    (List.range xs.length).map
        (fun i => toSigned 4 (readLE (getB (arrayPayload xs)) (4 * i) 4)) = xs := by
  intro xs
  induction xs with
  | nil => intro h; rfl
  | cons x rest ih =>
    intro h
    rw [show (x :: rest).length = rest.length + 1 from rfl]
    rw [List.range_succ_eq_map]
    rw [List.map_cons, List.map_map]
    have hhead : toSigned 4 (readLE (getB (arrayPayload (x :: rest))) (4 * 0) 4) = x := by
      rw [arrayPayload_cons]
      rw [show 4 * 0 = 0 from rfl]
      rw [readLE_toLE]
      rw [Nat.mod_eq_of_lt (by have := toNat2c_lt x; norm_num; omega)]
      exact toSigned_toNat2c x (h x (by simp)).1 (h x (by simp)).2
    rw [hhead]
    have htail : (List.range rest.length).map
        ((fun i => toSigned 4 (readLE (getB (arrayPayload (x :: rest))) (4 * i) 4))
          ∘ Nat.succ)
        = (List.range rest.length).map
          (fun i => toSigned 4 (readLE (getB (arrayPayload rest)) (4 * i) 4)) := by
      apply List.map_congr_left
      intro i hi
      simp only [Function.comp_apply]
      rw [arrayPayload_cons]
      rw [show 4 * (i + 1) = (toLE 4 (toNat2c 4 x)).length + 4 * i by
        rw [toLE_length]; omega]
      rw [readLE_skipPre]
    rw [htail]
    rw [ih (fun y hy => h y (by simp [hy]))]

/-- Decoding the EXPANew string payload (string, NUL, padding to a
4-byte multiple) recovers the string when it contains no NUL byte. -/
theorem mkChnkString_decode_expa (absOff : Nat) (s : List Nat) (h0 : 0 ∉ s) :
    readCString (getB (expa.mkChnkString absOff s).value) 0
      (expa.mkChnkString absOff s).value.length = s := by
  unfold expa.mkChnkString
  simp only
  have hk : ceilInt (s.length + 1) 4 - s.length ≥ 1 := by
    unfold ceilInt; norm_num; omega
  rw [show List.replicate (ceilInt (s.length + 1) 4 - s.length) (0 : Nat)
      = 0 :: List.replicate (ceilInt (s.length + 1) 4 - s.length - 1) 0 by
    rw [show ceilInt (s.length + 1) 4 - s.length
        = (ceilInt (s.length + 1) 4 - s.length - 1) + 1 by omega]
    rfl]
  apply readCString_terminated s _ _ h0
  simp

/-- Decoding the part_000 string payload (one more byte of slack)
likewise recovers a NUL-free string. -/
theorem mkChnkString_decode_p0 (absOff : Nat) (s : List Nat) (h0 : 0 ∉ s) :
    readCString (getB (p0.mkChnkString absOff s).value) 0
      (p0.mkChnkString absOff s).value.length = s := by
  unfold p0.mkChnkString
  simp only
  have hk : ceilInt (s.length + 2) 4 - s.length ≥ 1 := by
    unfold ceilInt; norm_num; omega
  rw [show List.replicate (ceilInt (s.length + 2) 4 - s.length) (0 : Nat)
      = 0 :: List.replicate (ceilInt (s.length + 2) 4 - s.length - 1) 0 by
    rw [show ceilInt (s.length + 2) 4 - s.length
        = (ceilInt (s.length + 2) 4 - s.length - 1) + 1 by omega]
    rfl]
  apply readCString_terminated s _ _ h0
  simp

theorem zip_replicate_map {α β γ : Type} (e : α) (f : β → γ) :
    ∀ bs : List β, (List.replicate bs.length e).zip (bs.map f)
      = bs.map fun b => (e, f b) := by
  intro bs
  induction bs with
  | nil => rfl
  | cons b rest ih => simp [List.replicate_succ, ih]

theorem p0_writeFinish_off (st : WState) :
    (p0.writeFinish st).off = if 0 < st.bc then st.off + 4 else st.off := by
  unfold p0.writeFinish
  split <;> rfl

theorem expa_writeFinish_off (st : WState) :
    (expa.writeFinish st).off = if 0 < st.bc then st.off + 4 else st.off := by
  unfold expa.writeFinish
  split <;> rfl

/-- One part_000 `writeEXPA` loop iteration on a BOOL field with a
non-full bool word: only the bit counter and the in-flight word move. -/
theorem p0_writeStep_bool_lt (mem : Nat → Nat) (off bc word : Nat)
    (chnk : List CHNKEntry) (nm : String) (v : Bool) (h1 : bc < 32) :
    p0.writeStep ⟨mem, off, bc, word, chnk⟩ (⟨nm, .BOOL⟩, .vBool v) =
      ⟨mem, off, bc + 1, bset word bc v, chnk⟩ := by
  unfold p0.writeStep p0.writeEXPAEntry
  simp [Nat.not_le.mpr h1, getBoolV]

/-- One part_000 `writeEXPA` loop iteration on a BOOL field with the
word full (`bitCounter >= 32`): flush, advance 4, start a new word. -/
theorem p0_writeStep_bool_flush (mem : Nat → Nat) (off word : Nat)
    (chnk : List CHNKEntry) (nm : String) (v : Bool) (h4 : off % 4 = 0) :
    p0.writeStep ⟨mem, off, 32, word, chnk⟩ (⟨nm, .BOOL⟩, .vBool v) =
      ⟨writeBytesF mem off (toLE 4 word), off + 4, 1, bset 0 0 v, chnk⟩ := by
  unfold p0.writeStep p0.writeEXPAEntry
  have hc : ceilInt (off + 4) 4 = off + 4 := ceilInt_of_mod4 _ (by omega)
  simp [getBoolV, getAlignment, hc]

/-- Offset evolution of part_000's `writeEXPA` loop across a run of
consecutive BOOL fields: starting inside a word (`1 ≤ bc ≤ 32`, offset
4-aligned), the run of `bs.length` further bools advances the offset by
4 bytes per completed 32-bit word. -/
theorem p0_writeGo_boolrun (nm : String) :
    ∀ (bs : List Bool) (mem : Nat → Nat) (off bc word : Nat)
      (chnk : List CHNKEntry), 1 ≤ bc → bc ≤ 32 → off % 4 = 0 →
      (p0.writeGo (bs.map fun b => (⟨nm, .BOOL⟩, .vBool b))
            ⟨mem, off, bc, word, chnk⟩).off
          = off + 4 * ((bc - 1 + bs.length) / 32 - (bc - 1) / 32) ∧
        1 ≤ (p0.writeGo (bs.map fun b => (⟨nm, .BOOL⟩, .vBool b))
            ⟨mem, off, bc, word, chnk⟩).bc := by
  intro bs
  induction bs with
  | nil =>
    intro mem off bc word chnk h1 h2 h4
    simp only [List.map_nil, p0.writeGo, List.length_nil]
    omega
  | cons b rest ih =>
    intro mem off bc word chnk h1 h2 h4
    simp only [List.map_cons, p0.writeGo, List.length_cons]
    rcases Nat.lt_or_ge bc 32 with hlt | hge
    · rw [p0_writeStep_bool_lt mem off bc word chnk nm b hlt]
      have h5 := ih mem off (bc + 1) (bset word bc b) chnk (by omega) (by omega) h4
      refine ⟨?_, h5.2⟩
      have h6 := h5.1
      omega
    · have h32 : bc = 32 := by omega
      subst h32
      rw [p0_writeStep_bool_flush mem off word chnk nm b h4]
      have h5 := ih (writeBytesF mem off (toLE 4 word)) (off + 4) 1
        (bset 0 0 b) chnk (by omega) (by omega) (by omega)
      refine ⟨?_, h5.2⟩
      have h6 := h5.1
      omega

/-- Size evolution of part_000's `getEXPASize` loop across a run of
consecutive BOOL fields, mirroring `p0_writeGo_boolrun` (this loop
charges each word eagerly when it opens, so the two agree per completed
word). -/
theorem p0_sizeGo_boolrun (nm : String) :
    ∀ (n cs bc : Nat), 1 ≤ bc → bc ≤ 32 → cs % 4 = 0 →
      p0.sizeGo (List.replicate n ⟨nm, .BOOL⟩) cs bc
        = cs + 4 * ((bc - 1 + n) / 32 - (bc - 1) / 32) := by
  intro n
  induction n with
  | zero =>
    intro cs bc h1 h2 h4
    simp only [List.replicate, p0.sizeGo]
    omega
  | succ m ih =>
    intro cs bc h1 h2 h4
    simp only [List.replicate_succ, p0.sizeGo]
    rcases Nat.lt_or_ge bc 32 with hlt | hge
    · have h0 : ¬(bc = 0) := by omega
      have hn : ¬(32 ≤ bc) := by omega
      simp [h0, hn]
      rw [ih cs (bc + 1) (by omega) (by omega) h4]
      omega
    · have h32 : bc = 32 := by omega
      subst h32
      simp [getAlignment, getSize, ceilInt_of_mod4 cs h4]
      rw [ih (cs + 4) 1 (by omega) (by omega) (by omega)]
      omega

/-- One EXPANew `writeEXPA` loop iteration on a non-BOOL field with no
pending bool word: align, write the cell, advance by the field size. -/
theorem expa_writeStep_nonbool_eq (base : Nat) (mem : Nat → Nat)
    (off word : Nat) (chnk : List CHNKEntry) (e : StructureEntry)
    (v : EntryValue) (he : e.type ≠ .BOOL) :
    expa.writeStep base ⟨mem, off, 0, word, chnk⟩ (e, v) =
      ⟨(expa.writeEXPAEntry (base + ceilInt off (getAlignment e.type)) mem
          (ceilInt off (getAlignment e.type)) e.type v).1,
        ceilInt off (getAlignment e.type) + getSize e.type, 0, word,
        chnk ++ (expa.writeEXPAEntry (base + ceilInt off (getAlignment e.type)) mem
          (ceilInt off (getAlignment e.type)) e.type v).2.toList⟩ := by
  unfold expa.writeStep
  simp [he]

theorem expa_sizeGo_nonbool (e : StructureEntry) (l2 : List StructureEntry)
    (cs : Nat) (he : e.type ≠ .BOOL) :
    expa.sizeGo (e :: l2) cs 0 =
      expa.sizeGo l2 (ceilInt cs (getAlignment e.type) + getSize e.type) 0 := by
  simp only [expa.sizeGo]
  simp [he]

/-- On a bool-free structure, EXPANew's size loop and write loop advance
their cursors in lockstep (both align then add the field size; the bit
counter stays 0 throughout). -/
theorem expa_size_tracks_write (base : Nat) :
    ∀ (l : List StructureEntry) (row : List EntryValue) (mem : Nat → Nat)
      (off word : Nat) (chnk : List CHNKEntry),
      (∀ e ∈ l, e.type ≠ .BOOL) → row.length = l.length →
      expa.sizeGo l off 0
          = (expa.writeGo base (l.zip row) ⟨mem, off, 0, word, chnk⟩).off ∧
        (expa.writeGo base (l.zip row) ⟨mem, off, 0, word, chnk⟩).bc = 0 := by
  intro l
  induction l with
  | nil =>
    intro row mem off word chnk hb hl
    simp [expa.sizeGo, expa.writeGo]
  | cons e l2 ih =>
    intro row mem off word chnk hb hl
    cases row with
    | nil => simp at hl
    | cons v row2 =>
      have he : e.type ≠ .BOOL := hb e (List.mem_cons_self e l2)
      simp only [List.zip_cons_cons, expa.writeGo]
      rw [expa_writeStep_nonbool_eq base mem off word chnk e v he]
      rw [expa_sizeGo_nonbool e l2 off he]
      exact ih row2 _ _ _ _ (fun x hx => hb x (List.mem_cons_of_mem e hx))
        (by simpa using hl)

theorem dvd_pad8 (B k a : Nat) (ha : 8 ∣ a) :
    8 ∣ B + (ceilInt B 8 - B) + k * a := by
  have h1 := ceilInt8_ge B
  have h2 := ceilInt8_dvd B
  have h3 : B + (ceilInt B 8 - B) = ceilInt B 8 := by omega
  rw [h3]
  exact dvd_add h2 (Dvd.dvd.mul_left ha k)

theorem expa_writeRows_length (struc : List StructureEntry) (actual : Nat) :
    ∀ (rows : List (List EntryValue)) (acc : List Nat × List CHNKEntry),
      (expa.writeRows struc actual rows acc).1.length
        = acc.1.length + rows.length * actual := by
  intro rows
  induction rows with
  | nil => intro acc; simp [expa.writeRows]
  | cons r rest ih =>
    intro acc
    rw [expa.writeRows, ih]
    simp
    ring

/-- Each table the writer emits ends 8-aligned: the seek to
`ceilInteger<8>(tellp())` before the rows, plus rows of
`ceilInteger<8>(row_size)` bytes each. -/
theorem expa_writeTable_dvd (hasStruct : Bool) (acc : List Nat × List CHNKEntry)
    (t : Table) : 8 ∣ (expa.writeTable hasStruct acc t).1.length := by
  unfold expa.writeTable
  rw [expa_writeRows_length]
  simp only [List.length_append, List.length_replicate]
  exact dvd_pad8 _ _ _ (ceilInt8_dvd _)

theorem expa_writeTablesGo_dvd (hasStruct : Bool) :
    ∀ (ts : List Table) (acc : List Nat × List CHNKEntry),
      8 ∣ acc.1.length → 8 ∣ (expa.writeTablesGo hasStruct ts acc).1.length := by
  intro ts
  induction ts with
  | nil => intro acc h; exact h
  | cons t ts2 ih =>
    intro acc h
    rw [expa.writeTablesGo]
    exact ih _ (expa_writeTable_dvd hasStruct acc t)

theorem expa_preChnk_dvd (hasStruct : Bool) (f : FinalFile) :
    8 ∣ (expa.writePreChnk hasStruct f).1.length := by
  unfold expa.writePreChnk
  apply expa_writeTablesGo_dvd
  simp [toLE_length]

/-! ## Claim theorems -/

/-- C1 (code_bug evaluation): writing the valid `EXPA64` table file
`boolPairFile` (structure `[BOOL, BOOL]`, row `[true, true]`) and reading
it back with the same dialect succeeds but returns the row
`[true, false]` — not a deep-equal `TableFile`.  The writer packs both
bools into one 32-bit word, while the reader consumes one word per bool
and always reads bit 0 (EXPANew.cpp lines 285-308 versus 250-283). -/
theorem C1_roundtrip_bool_divergence :
    expa.readEXPAFile true 8 (fun _ => []) (expa.writeEXPAFile true boolPairFile) =
        .ok boolPairReadBack ∧
      boolPairReadBack.tables.map Table.entries ≠ boolPairFile.tables.map Table.entries := by
  exact ⟨by rfl, by decide⟩

/-- C2 (counterexample): for the structure `[INT32, INT8]` and the
matching row `[0, 0]`, `Structure::getEXPASize()` returns 8 (the even
field count triggers the round-up of EXPANew.cpp line 329) but the final
offset cursor of `Structure::writeEXPA` — including the trailing
bool-word flush, which is a no-op here — is 5, so the two are not equal
as the claim states. -/
theorem C2_counterexample :
    expa.getEXPASize [⟨"a", .INT32⟩, ⟨"b", .INT8⟩] ≠
      (expa.writeEXPA 0 (fun _ => 0xCC) [⟨"a", .INT32⟩, ⟨"b", .INT8⟩]
        [.vI32 0, .vI8 0]).off := by
  decide

/-- C3 (counterexample): a structure of exactly 3 consecutive BOOL
fields is a single run, so the claim makes its footprint in the size
computation `ceil(3/32) * 4 = 4` bytes (and with an odd field count
`getEXPASize` applies no final rounding that could hide it); the actual
`Structure::getEXPASize` of EXPANew.cpp charges a full 4-byte word per
bool and returns 12. -/
theorem C3_counterexample :
    expa.getEXPASize (List.replicate 3 ⟨"b", .BOOL⟩) = 12 ∧
      (3 + 31) / 32 * 4 = 4 ∧ (12 : Nat) ≠ 4 := by
  decide

/-- C4 (counterexample): an empty int-array cell does emit a
`CHNKEntry` in EXPANew.cpp (`writeEXPAEntry` line 178 returns one
unconditionally, with an empty payload and slot offset
`base_offset + 8`), contradicting the claim that it emits none. -/
theorem C4_counterexample :
    (expa.writeEXPAEntry 0 (fun _ => 0xCC) 0 .INT_ARRAY (.vArr [])).2 =
        some ⟨8, []⟩ ∧
      some (⟨8, []⟩ : CHNKEntry) ≠ none := by
  decide

/-- C5 (counterexample): on `[INT32, INT16, INT8]` the field count is
odd, so `Structure::getEXPASize` of EXPANew.cpp skips the round-up of
line 329 and returns the raw layout size 7, not the 8 the claim
requires. -/
theorem C5_counterexample : expa.getEXPASize s3Fields ≠ 8 := by
  decide

/-- C5 (amended): EXPANew.cpp's `getEXPASize` rounds the layout size up
to 8 only when the field count is even and returns 7 on
`[INT32, INT16, INT8]`; part_000's `getEXPASize` rounds up
unconditionally — it returns 8 there and a multiple of 8 on every
structure. -/
theorem C5_amended :
    expa.getEXPASize s3Fields = 7 ∧ p0.getEXPASize s3Fields = 8 ∧
      ∀ s, p0.getEXPASize s % 8 = 0 := by
  refine ⟨by decide, by decide, ?_⟩
  intro s
  unfold p0.getEXPASize
  split
  · rfl
  · simp only [ceilInt]
    norm_num

/-- C6 (counterexample): EXPANew.cpp's `convertEntryType` has no
`"byte"` entry (nor `"short"`), so `"byte"` falls through to `EMPTY`
instead of the claimed `INT8`. -/
theorem C6_counterexample :
    expa.convertEntryType "byte" = .EMPTY ∧ expa.convertEntryType "byte" ≠ .INT8 := by
  decide

/-- C6 (amended): part_000's `getTypeMap`-based translation realises the
claimed table exactly; EXPANew.cpp's `convertEntryType` agrees with it
on every string except `"byte"` and `"short"`, which it maps (like any
unknown string) to `EMPTY`. -/
theorem C6_amended :
    ∀ s, p0.convertEntryType s = claimedTypeMap s ∧
      expa.convertEntryType s =
        (if s = "byte" ∨ s = "short" then .EMPTY else claimedTypeMap s) := by
  intro s
  refine ⟨rfl, ?_⟩
  by_cases h1 : s = "byte"
  · subst h1; decide
  · by_cases h2 : s = "short"
    · subst h2; decide
    · rw [if_neg (by simp [h1, h2])]
      unfold expa.convertEntryType claimedTypeMap
      rw [if_neg h1, if_neg h2]

/-- C7 (counterexample): when the schema folder and index file exist but
the index JSON is unparseable (`read_json` raises, modelled as
`Except.error`), `getStructureFromFile` does not return the empty
Structure — the exception propagates out (there is no try/catch in
EXPANew.cpp lines 110-153 or in any caller up to `readEXPA`). -/
theorem C7_counterexample :
    expa.getStructureFromFile true true (.error ()) (fun _ => .ok [])
        (fun _ _ => false) id "f" "t" = .error () ∧
      (Except.error () : Except Unit (List StructureEntry)) ≠ .ok [] :=
  ⟨rfl, fun h => Except.noConfusion h⟩

/-- C7 (amended): an unparseable schema index propagates the parse error
out of `getStructureFromFile` (and likewise for a selected schema file);
only a missing `structures/` folder or missing index file produce the
empty Structure. -/
theorem C7_amended :
    ∀ (parseFormat : String → Except Unit (List (String × List (String × String))))
      (regexSearch : String → String → Bool) (wrapRegex : String → String)
      (filePath tableName : String) (e : Unit) (key file : String),
      (expa.getStructureFromFile true true (.error e) parseFormat regexSearch
          wrapRegex filePath tableName = .error e) ∧
      (∀ pi ix, expa.getStructureFromFile false ix pi parseFormat regexSearch
          wrapRegex filePath tableName = .ok []) ∧
      (∀ pi, expa.getStructureFromFile true false pi parseFormat regexSearch
          wrapRegex filePath tableName = .ok []) ∧
      (regexSearch filePath key = true → file ≠ "" → parseFormat file = .error e →
        expa.getStructureFromFile true true (.ok [(key, file)]) parseFormat
          regexSearch wrapRegex filePath tableName = .error e) := by
  intro parseFormat regexSearch wrapRegex filePath tableName e key file
  refine ⟨rfl, fun pi ix => rfl, fun pi => rfl, fun hk hf hp => ?_⟩
  unfold expa.getStructureFromFile
  simp [hk, hf, hp]

/-- C7 (witness for the amended theorem): a concrete index selecting
schema file `"g"` whose JSON fails to parse makes the resolution call
return the error. -/
theorem C7_amended_witness :
    expa.getStructureFromFile true true (.ok [("k", "g")]) (fun _ => .error ())
      (fun _ _ => true) id "f" "t" = .error () :=
  (C7_amended (fun _ => .error ()) (fun _ _ => true) id "f" "t" () "k" "g").2.2.2
    rfl (by decide) rfl

/-- C9: for the empty Structure, both generations of
`Structure::readEXPA` return the empty row for every input buffer (the
early return at EXPANew.cpp line 287 / part_000 line 707 fires before
any byte is read), and both `getEXPASize` return 0 (EXPANew.cpp line
312 / part_000 line 763, before any round-up runs). -/
theorem C9_empty_structure :
    ∀ (mem : Nat → Nat) (fuel base : Nat),
      expa.readEXPA mem fuel base [] = [] ∧ p0.readEXPA mem fuel base [] = [] ∧
        expa.getEXPASize [] = 0 ∧ p0.getEXPASize [] = 0 :=
  fun _ _ _ => ⟨rfl, rfl, rfl, rfl⟩

/-- C10: both generations of `Structure::writeEXPA` iterate over
`std::views::zip(structure, entries)`, so they encode exactly
`min(field count, row length)` cells — surplus row values are ignored
and, for a short row, the trailing fields are never visited (their
buffer bytes keep the `0xCC` fill and no error is raised): the whole
result (buffer, offset cursor, bool state, CHNK entries) equals that of
the mutually truncated structure and row. -/
theorem C10_zip_truncation :
    ∀ (base : Nat) (mem : Nat → Nat) (s : List StructureEntry)
      (row : List EntryValue),
      expa.writeEXPA base mem s row =
          expa.writeEXPA base mem (s.take row.length) (row.take s.length) ∧
        p0.writeEXPA s row = p0.writeEXPA (s.take row.length) (row.take s.length) := by
  intro base mem s row
  constructor
  · unfold expa.writeEXPA
    rw [zip_eq_zip_truncated s row]
  · unfold p0.writeEXPA
    rw [zip_eq_zip_truncated s row]

/-- C2 (amended): on every bool-free structure paired with a row of the
same length, EXPANew's `getEXPASize` equals the final offset cursor of
`Structure::writeEXPA` rounded up to a multiple of 8 when the field
count is even, and equals it exactly when odd.  (For structures with
BOOL fields even the pre-rounding values diverge — the size loop charges
4 bytes per bool while the write loop packs a word — see the
counterexample and C3.) -/
theorem C2_amended :
    ∀ (s : List StructureEntry) (row : List EntryValue) (base : Nat)
      (mem : Nat → Nat),
      (∀ e ∈ s, e.type ≠ .BOOL) → row.length = s.length →
      expa.getEXPASize s =
        if s.length % 2 = 0 then ceilInt (expa.writeEXPA base mem s row).off 8
        else (expa.writeEXPA base mem s row).off := by
  intro s row base mem hb hl
  have key := expa_size_tracks_write base s row mem 0 0 [] hb hl
  unfold expa.writeEXPA
  have hfo : (expa.writeFinish
        (expa.writeGo base (s.zip row) ⟨mem, 0, 0, 0, []⟩)).off
      = (expa.writeGo base (s.zip row) ⟨mem, 0, 0, 0, []⟩).off := by
    rw [expa_writeFinish_off, key.2]
    simp
  rw [hfo, ← key.1]
  unfold expa.getEXPASize
  cases s with
  | nil => simp [expa.sizeGo, ceilInt]
  | cons e l2 => simp only [List.isEmpty_cons, Bool.false_eq_true, if_false]

/-- C2 (witness): the amended law evaluated on `[INT32, INT8]` with row
`[5, 2]`. -/
theorem C2_amended_witness :
    expa.getEXPASize [⟨"a", .INT32⟩, ⟨"b", .INT8⟩] =
      if ([⟨"a", .INT32⟩, ⟨"b", .INT8⟩] : List StructureEntry).length % 2 = 0
      then ceilInt (expa.writeEXPA 0 (fun _ => 0xCC)
        [⟨"a", .INT32⟩, ⟨"b", .INT8⟩] [.vI32 5, .vI8 2]).off 8
      else (expa.writeEXPA 0 (fun _ => 0xCC)
        [⟨"a", .INT32⟩, ⟨"b", .INT8⟩] [.vI32 5, .vI8 2]).off :=
  C2_amended [⟨"a", .INT32⟩, ⟨"b", .INT8⟩] [.vI32 5, .vI8 2] 0
    (fun _ => 0xCC) (by decide) (by decide)

/-- C3 (amended): in part_000, a non-empty run of `N` consecutive BOOL
fields (taken in isolation, as its own structure) encodes in exactly
`ceil(N / 32) * 4` bytes — the final offset cursor of its `writeEXPA`
including the trailing flush — with consecutive bools sharing one 32-bit
word and the 33rd forcing a new one; its `getEXPASize` is that footprint
rounded up to a multiple of 8. -/
theorem C3_amended :
    ∀ (bs : List Bool), bs ≠ [] →
      (p0.writeEXPA (List.replicate bs.length ⟨"b", .BOOL⟩)
          (bs.map EntryValue.vBool)).off = 4 * ((bs.length + 31) / 32) ∧
        p0.getEXPASize (List.replicate bs.length ⟨"b", .BOOL⟩)
          = ceilInt (4 * ((bs.length + 31) / 32)) 8 := by
  intro bs hbs
  cases bs with
  | nil => exact absurd rfl hbs
  | cons b rest =>
    constructor
    · unfold p0.writeEXPA
      rw [zip_replicate_map]
      simp only [List.map_cons, p0.writeGo]
      rw [p0_writeStep_bool_lt (fun _ => 0xCC) 0 0 0 [] "b" b (by omega)]
      have hw := p0_writeGo_boolrun "b" rest (fun _ => 0xCC) 0 (0 + 1)
        (bset 0 0 b) [] (by omega) (by omega) (by omega)
      have hw1 := hw.1
      have hw2 := hw.2
      rw [p0_writeFinish_off]
      rw [if_pos (by omega)]
      simp only [List.length_cons]
      omega
    · have hrep : List.replicate (b :: rest).length (⟨"b", .BOOL⟩ : StructureEntry)
          = ⟨"b", .BOOL⟩ :: List.replicate rest.length ⟨"b", .BOOL⟩ := by
        simp [List.replicate_succ]
      rw [hrep]
      unfold p0.getEXPASize
      simp only [List.isEmpty_cons, if_false, Bool.false_eq_true]
      simp only [p0.sizeGo]
      simp [getAlignment, getSize, ceilInt_of_mod4 0 (by omega)]
      rw [p0_sizeGo_boolrun "b" rest.length 4 1 (by omega) (by omega) (by omega)]
      have heq : 4 + 4 * ((1 - 1 + rest.length) / 32 - (1 - 1) / 32)
          = 4 * ((rest.length + 1 + 31) / 32) := by omega
      rw [heq]

/-- C3 (witness): the amended law at 33 consecutive bools — footprint
`ceil(33 / 32) * 4 = 8` bytes, size 8. -/
theorem C3_amended_witness :
    (p0.writeEXPA (List.replicate (List.replicate 33 true).length ⟨"b", .BOOL⟩)
        ((List.replicate 33 true).map EntryValue.vBool)).off
        = 4 * (((List.replicate 33 true).length + 31) / 32) ∧
      p0.getEXPASize (List.replicate (List.replicate 33 true).length ⟨"b", .BOOL⟩)
        = ceilInt (4 * (((List.replicate 33 true).length + 31) / 32)) 8 :=
  C3_amended (List.replicate 33 true) (by decide)

/-- C4 (amended): string cells emit exactly one `CHNKEntry` when
non-empty and none when empty, in both generations, and a NUL-free
string payload decodes back to exactly the string it was encoded from
via the NUL-terminated read the reader performs.  Int-array cells emit
one `CHNKEntry` when non-empty in both generations, but for an empty
array part_000 emits none while EXPANew emits one (with empty payload).
Decode-back for int arrays holds only in part_000, whose payload is the
raw little-endian `int32_t` bytes: EXPANew's constructor narrows each
`int32_t` to a single char (low byte, then `3 * size` zeros), so its
payload does not decode back through the reader's count-and-pointer
loads — `[1, 2]` comes back as `[513, 0]`. -/
theorem C4_amended :
    ∀ (absOff : Nat) (mem : Nat → Nat) (off : Nat) (s : List Nat)
      (xs : List Int),
      0 ∉ s → (∀ x ∈ xs, -(2 ^ 31) ≤ x ∧ x < 2 ^ 31) →
      ((expa.writeEXPAEntry absOff mem off .STRING (.vStr s)).2
          = if s = [] then none else some (expa.mkChnkString absOff s)) ∧
      ((p0.writeEXPAEntry absOff mem off .STRING (.vStr s)).2
          = if s = [] then none else some (p0.mkChnkString absOff s)) ∧
      ((p0.writeEXPAEntry absOff mem off .INT_ARRAY (.vArr xs)).2
          = if xs = [] then none else some ⟨absOff + 8, arrayPayload xs⟩) ∧
      ((expa.writeEXPAEntry absOff mem off .INT_ARRAY (.vArr xs)).2
          = some (expa.mkChnkArray (absOff + 8) xs)) ∧
      (s ≠ [] → readCString (getB (expa.mkChnkString absOff s).value) 0
          (expa.mkChnkString absOff s).value.length = s) ∧
      (s ≠ [] → readCString (getB (p0.mkChnkString absOff s).value) 0
          (p0.mkChnkString absOff s).value.length = s) ∧
      ((List.range xs.length).map
          (fun i => toSigned 4 (readLE (getB (arrayPayload xs)) (4 * i) 4)) = xs) ∧
      ((List.range ([1, 2] : List Int).length).map
          (fun i => toSigned 4
            (readLE (getB (expa.mkChnkArray 8 [1, 2]).value) (4 * i) 4))
        = [513, 0]) := by
  intro absOff mem off s xs h0 hr
  refine ⟨?_, ?_, ?_, ?_, fun _ => mkChnkString_decode_expa absOff s h0,
    fun _ => mkChnkString_decode_p0 absOff s h0, arrayPayload_decode xs hr,
    by decide⟩
  · unfold expa.writeEXPAEntry
    simp [getStrV]
  · unfold p0.writeEXPAEntry
    simp [getStrV]
  · unfold p0.writeEXPAEntry
    simp [getArrV]
  · unfold expa.writeEXPAEntry
    simp [getArrV]

/-- C4 (witness): the amended law at the string `"hi"` (bytes 104 105)
and the array `[1, -1, 3]`. -/
theorem C4_amended_witness :
    ((expa.writeEXPAEntry 7 (fun _ => 0xCC) 0 .STRING (.vStr [104, 105])).2
        = if ([104, 105] : List Nat) = [] then none
          else some (expa.mkChnkString 7 [104, 105])) ∧
      ((p0.writeEXPAEntry 7 (fun _ => 0xCC) 0 .STRING (.vStr [104, 105])).2
          = if ([104, 105] : List Nat) = [] then none
            else some (p0.mkChnkString 7 [104, 105])) ∧
      ((p0.writeEXPAEntry 7 (fun _ => 0xCC) 0 .INT_ARRAY (.vArr [1, -1, 3])).2
          = if ([1, -1, 3] : List Int) = [] then none
            else some ⟨7 + 8, arrayPayload [1, -1, 3]⟩) ∧
      ((expa.writeEXPAEntry 7 (fun _ => 0xCC) 0 .INT_ARRAY (.vArr [1, -1, 3])).2
          = some (expa.mkChnkArray (7 + 8) [1, -1, 3])) ∧
      (([104, 105] : List Nat) ≠ [] →
        readCString (getB (expa.mkChnkString 7 [104, 105]).value) 0
          (expa.mkChnkString 7 [104, 105]).value.length = [104, 105]) ∧
      (([104, 105] : List Nat) ≠ [] →
        readCString (getB (p0.mkChnkString 7 [104, 105]).value) 0
          (p0.mkChnkString 7 [104, 105]).value.length = [104, 105]) ∧
      ((List.range ([1, -1, 3] : List Int).length).map
          (fun i => toSigned 4 (readLE (getB (arrayPayload [1, -1, 3])) (4 * i) 4))
        = [1, -1, 3]) ∧
      ((List.range ([1, 2] : List Int).length).map
          (fun i => toSigned 4
            (readLE (getB (expa.mkChnkArray 8 [1, 2]).value) (4 * i) 4))
        = [513, 0]) :=
  C4_amended 7 (fun _ => 0xCC) 0 [104, 105] [1, -1, 3] (by decide) (by decide)

/-- C8: in every file produced by the container writer, the CHNK header
begins at an offset divisible by 8 — hence by the dialect's
`ALIGN_STEP` for both `EXPA64` (8) and `EXPA32` (4) — for every
`TableFile`, including ones with zero tables or zero rows: the EXPA
header is 8 bytes and each table region ends at the 8-aligned row start
plus a multiple of the 8-rounded row size. -/
theorem C8_chnk_alignment :
    ∀ f : FinalFile,
      expa.chnkHeaderOffset true f % 8 = 0 ∧ expa.chnkHeaderOffset false f % 4 = 0 := by
  intro f
  have h64 := expa_preChnk_dvd true f
  have h32 := expa_preChnk_dvd false f
  unfold expa.chnkHeaderOffset
  obtain ⟨c, hc⟩ := h64
  obtain ⟨d, hd⟩ := h32
  omega

end MVGL
